import Mathlib

/-!
Verification of the Software-Modelling web-crawler repository.

URLs and paths are modelled as lists of characters (`Str`), mirroring
Python strings, so that the string-manipulating code of the crawler
(`urllib.parse` style splitting, prefix and substring tests) can be
embedded as executable structural recursions.
-/

/-- Python strings are modelled as lists of characters. -/
abbrev Str := List Char

/-- `s.startswith(pre)` on Python strings. -/
def pyStartswith : Str → Str → Bool
  | _, [] => true
  | [], _ :: _ => false
  | c :: cs, p :: ps => c = p && pyStartswith cs ps

/-- `s.endswith(suf)` on Python strings. -/
def pyEndswith (s suf : Str) : Bool :=
  pyStartswith s.reverse suf.reverse

/-- `needle in haystack` on Python strings (substring containment). -/
def pyContains : Str → Str → Bool
  | _, [] => true
  | [], _ :: _ => false
  | c :: cs, needle => pyStartswith (c :: cs) needle || pyContains cs needle

/-- `s.lower()` restricted to the ASCII case mapping used by the URLs here. -/
def pyLower (s : Str) : Str := s.map Char.toLower

/-- `s.rstrip('/')`: drop every trailing slash. -/
def pyRstripSlash (s : Str) : Str :=
  (s.reverse.dropWhile (fun c => c = '/')).reverse

/-!
## urllib.parse.urlparse (external collaborator)

Only the `netloc` and `path` components are used by the crawler.  The
scheme test mirrors `urllib.parse`: a scheme is a nonempty run of
scheme characters (first alphabetic) terminated by a colon.
-/

/-- Characters allowed inside a URL scheme, as in `urllib.parse`. -/
def isSchemeChar (c : Char) : Bool :=
  c.isAlpha || c.isDigit || c = '+' || c = '-' || c = '.'

/-- Whether the string begins with `scheme:` for a wellformed scheme. -/
def hasScheme (s : Str) : Bool :=
  match s.takeWhile (fun c => c ≠ ':') with
  | [] => false
  | c :: cs => (c :: cs).length < s.length && c.isAlpha && (c :: cs).all isSchemeChar

/-- The part of the URL after `scheme:` (or the URL itself when schemeless). -/
def afterScheme (s : Str) : Str :=
  if hasScheme s then (s.dropWhile (fun c => c ≠ ':')).drop 1 else s

/-- `urlparse(url).netloc`: the authority, present only after `//`. -/
def parseNetloc (url : Str) : Str :=
  let r := afterScheme url
  if pyStartswith r ('/' :: '/' :: []) then
    (r.drop 2).takeWhile (fun c => c ≠ '/' && c ≠ '?' && c ≠ '#')
  else []

/-- `urlparse(url).path`. -/
def parsePath (url : Str) : Str :=
  let r := afterScheme url
  let r := if pyStartswith r ('/' :: '/' :: []) then
    (r.drop 2).dropWhile (fun c => c ≠ '/' && c ≠ '?' && c ≠ '#')
  else r
  r.takeWhile (fun c => c ≠ '?' && c ≠ '#')

/-!
## WebCrawler.is_url_allowed  (src/crawler/crawler.py, lines 247-273)
-/

/-- `WebCrawler.is_url_allowed`: empty allow list is checked first, then
exclusion substrings, then allowed-domain prefixes. -/
def isUrlAllowed (url : Str) (allowedDomains : List Str) (excludeDomains : List Str) : Bool :=
  if allowedDomains.isEmpty then true
  else if excludeDomains.any (fun excluded => pyContains url excluded) then false
  else allowedDomains.any (fun domain => pyStartswith url domain)

/-!
## DynamicWebCrawler._is_allowed_url  (src/ref/dynamic_crawler.py, lines 169-192)
-/

/-- `DynamicWebCrawler._is_allowed_url`: empty allow list first, then excluded
prefixes, then allowed prefixes. -/
def isAllowedUrlDyn (url : Str) (allowedDomains : List Str) (excludeDomains : List Str) : Bool :=
  if allowedDomains.length = 0 then true
  else if excludeDomains.any (fun domain => pyStartswith url domain) then false
  else allowedDomains.any (fun domain => pyStartswith url domain)

/-!
## UTASpider.is_valid_url  (src/ref/crawler.py, lines 233-290)
-/

/-- One iteration of the `domain_limit` loop body of `is_valid_url`: the URL
matches a limit when the netlocs agree and, if the limit has a path, the
URL path starts with it (both paths right-stripped of slashes). -/
def matchesDomainLimit (url : Str) (limit : Str) : Bool :=
  parseNetloc url = parseNetloc limit &&
    (if parsePath limit ≠ [] then
      pyStartswith (pyRstripSlash (parsePath url)) (pyRstripSlash (parsePath limit))
    else true)

/-- `UTASpider.is_valid_url`: anchor test, scheme test, visited test,
`domain_limit` allow rules, `exclude_domains` substring rules, and the
non-HTML extension filter, in source order. -/
def isValidUrl (visited : List Str) (domainLimit : List Str) (excludeDomains : List Str)
    (url : Str) : Bool :=
  if pyStartswith url ('#' :: []) then false
  else if !(pyStartswith url "http://".toList || pyStartswith url "https://".toList) then false
  else if visited.contains url then false
  else if !domainLimit.isEmpty && !(domainLimit.any (matchesDomainLimit url)) then false
  else if excludeDomains.any (fun excluded => pyContains url excluded) then false
  else
    let path := pyLower (parsePath url)
    if pyContains path ('.' :: []) && !pyEndswith path ".html".toList then false
    else true

example : isUrlAllowed "https://bad.example.com/page".toList [] ["bad".toList] = true := by decide
example : isAllowedUrlDyn "https://x.com/".toList [] ["https://x.com".toList] = true := by decide
example : isValidUrl [] [] ["bad".toList] "https://bad.example.com/page".toList = false := by
  decide
example : isValidUrl [] [] [] "https://example.com/v1.2/page".toList = false := by decide
example : isValidUrl [] [] [] "https://example.com/v1/page".toList = true := by decide
example : isValidUrl [] ["https://example.com/docs".toList] []
    "https://example.com/docs/intro".toList = true := by decide
example : isValidUrl [] ["https://example.com/docs".toList] []
    "https://example.com/blog".toList = false := by decide

/-!
## UTASpider.parse — quota bookkeeping  (src/ref/crawler.py, lines 136-192)

The mutable spider state touched by `parse` (visited set, per-domain page
counters, discovered URL pool) is made explicit, and one invocation of
`parse` on a fetched response becomes a step function on that state.
-/

/-- The crawl quotas and URL filters configured on `UTASpider.__init__`. -/
structure SpiderConfig where
  maxTotalUrls : Nat
  maxUrlsPerDomain : Nat
  maxDepth : Nat
  domainLimit : List Str
  excludeDomains : List Str

/-- The mutable crawl state of `UTASpider` used by `parse`. -/
structure SpiderState where
  visitedUrls : List Str
  domainPageNum : List (Str × Nat)
  allUrls : List Str

/-- The empty state set up in `UTASpider.__init__`. -/
def SpiderState.init : SpiderState := ⟨[], [], []⟩

/-- Association-list lookup with default 0, modelling `dict` access on
`domain_page_num`. -/
def lookupCount (m : List (Str × Nat)) (d : Str) : Nat :=
  match m with
  | [] => 0
  | (k, v) :: rest => if k = d then v else lookupCount rest d

/-- Key-presence test on `domain_page_num`, modelling `domain in dict`. -/
def hasKey (m : List (Str × Nat)) (d : Str) : Bool :=
  m.any (fun kv => kv.1 = d)

/-- `if domain not in self.domain_page_num: self.domain_page_num[domain] = 0`. -/
def ensureKey (m : List (Str × Nat)) (d : Str) : List (Str × Nat) :=
  if hasKey m d then m else m ++ [(d, 0)]

/-- `self.domain_page_num[domain] += 1` (the key is present at call time). -/
def bumpKey : List (Str × Nat) → Str → List (Str × Nat)
  | [], _ => []
  | (k, v) :: rest, d =>
    if k = d then (k, v + 1) :: bumpKey rest d else (k, v) :: bumpKey rest d

/-- One invocation of `UTASpider.parse` on a response for `url` at `depth`
whose page contains the anchors `pageLinks`: the guard chain (global quota,
depth, validity, per-domain quota) followed by the state updates of a
successfully processed page. -/
def parseStep (cfg : SpiderConfig) (st : SpiderState) (url : Str) (depth : Nat)
    (pageLinks : List Str) : SpiderState :=
  if st.visitedUrls.length ≥ cfg.maxTotalUrls then st
  else if depth ≥ cfg.maxDepth then st
  else if !isValidUrl st.visitedUrls cfg.domainLimit cfg.excludeDomains url then st
  else if lookupCount (ensureKey st.domainPageNum (parseNetloc url)) (parseNetloc url) ≥
      cfg.maxUrlsPerDomain then
    { st with domainPageNum := ensureKey st.domainPageNum (parseNetloc url) }
  else
    { visitedUrls := st.visitedUrls ++ [url]
      domainPageNum := bumpKey (ensureKey st.domainPageNum (parseNetloc url)) (parseNetloc url)
      allUrls := st.allUrls ++ pageLinks }

/-- A whole crawl run: folding `parse` invocations over the initial state. -/
def runSteps (cfg : SpiderConfig) (steps : List (Str × Nat × List Str)) : SpiderState :=
  steps.foldl (fun st s => parseStep cfg st s.1 s.2.1 s.2.2) SpiderState.init

theorem lookupCount_append_zero (m : List (Str × Nat)) (d x : Str) :
    lookupCount (m ++ [(d, 0)]) x = lookupCount m x := by
  induction m with
  | nil =>
    show (if d = x then 0 else lookupCount [] x) = 0
    split <;> rfl
  | cons kv rest ih =>
    obtain ⟨k, v⟩ := kv
    show (if k = x then v else lookupCount (rest ++ [(d, 0)]) x) = _
    rw [ih]
    rfl

theorem lookupCount_ensureKey (m : List (Str × Nat)) (d x : Str) :
    lookupCount (ensureKey m d) x = lookupCount m x := by
  unfold ensureKey
  split
  · rfl
  · exact lookupCount_append_zero m d x

theorem hasKey_ensureKey (m : List (Str × Nat)) (d : Str) :
    hasKey (ensureKey m d) d = true := by
  unfold ensureKey
  split
  · assumption
  · simp [hasKey]

theorem lookupCount_bumpKey_self (m : List (Str × Nat)) (d : Str)
    (h : hasKey m d = true) :
    lookupCount (bumpKey m d) d = lookupCount m d + 1 := by
  induction m with
  | nil => simp [hasKey] at h
  | cons kv rest ih =>
    obtain ⟨k, v⟩ := kv
    simp only [hasKey, List.any_cons, Bool.or_eq_true, decide_eq_true_eq] at h
    by_cases hk : k = d
    · simp [bumpKey, lookupCount, hk]
    · have hrest : hasKey rest d = true := by
        rcases h with h | h
        · exact absurd h hk
        · exact h
      simp [bumpKey, lookupCount, hk, ih hrest]

theorem lookupCount_bumpKey_other (m : List (Str × Nat)) (d x : Str) (hx : x ≠ d) :
    lookupCount (bumpKey m d) x = lookupCount m x := by
  induction m with
  | nil => rfl
  | cons kv rest ih =>
    obtain ⟨k, v⟩ := kv
    by_cases hk : k = d
    · have hdx : ¬d = x := fun h => hx h.symm
      simp [bumpKey, lookupCount, hk, hdx, ih]
    · by_cases hkx : k = x
      · simp [bumpKey, lookupCount, hk, hkx, hx]
      · simp [bumpKey, lookupCount, hk, hkx, ih]

/-- Per-step preservation of the quota invariant. -/
theorem parseStep_invariant (cfg : SpiderConfig) (st : SpiderState) (url : Str)
    (depth : Nat) (links : List Str)
    (hv : st.visitedUrls.length ≤ cfg.maxTotalUrls)
    (hc : ∀ d, lookupCount st.domainPageNum d ≤ cfg.maxUrlsPerDomain) :
    (parseStep cfg st url depth links).visitedUrls.length ≤ cfg.maxTotalUrls ∧
      ∀ d, lookupCount (parseStep cfg st url depth links).domainPageNum d ≤
        cfg.maxUrlsPerDomain := by
  unfold parseStep
  split
  · exact ⟨hv, hc⟩
  split
  · exact ⟨hv, hc⟩
  split
  · exact ⟨hv, hc⟩
  split
  · refine ⟨hv, fun d => ?_⟩
    rw [lookupCount_ensureKey]
    exact hc d
  · rename_i h1 _ _ h2
    push_neg at h1 h2
    constructor
    · simpa using h1
    · intro d
      by_cases hd : d = parseNetloc url
      · subst hd
        simp only
        rw [lookupCount_bumpKey_self _ _ (hasKey_ensureKey _ _), lookupCount_ensureKey]
        rw [lookupCount_ensureKey] at h2
        omega
      · simp only
        rw [lookupCount_bumpKey_other _ _ _ hd, lookupCount_ensureKey]
        exact hc d

/-- Counts never decrease across a `parse` step. -/
theorem parseStep_count_mono (cfg : SpiderConfig) (st : SpiderState) (url : Str)
    (depth : Nat) (links : List Str) (d : Str) :
    lookupCount st.domainPageNum d ≤
      lookupCount (parseStep cfg st url depth links).domainPageNum d := by
  unfold parseStep
  split
  · exact le_refl _
  split
  · exact le_refl _
  split
  · exact le_refl _
  split
  · simp only
    rw [lookupCount_ensureKey]
  · by_cases hd : d = parseNetloc url
    · subst hd
      simp only
      rw [lookupCount_bumpKey_self _ _ (hasKey_ensureKey _ _), lookupCount_ensureKey]
      omega
    · simp only
      rw [lookupCount_bumpKey_other _ _ _ hd, lookupCount_ensureKey]

/-- A step on a URL whose domain is at quota leaves the visited set and that
domain's count unchanged. -/
theorem parseStep_at_quota (cfg : SpiderConfig) (st : SpiderState) (url : Str)
    (depth : Nat) (links : List Str)
    (hq : lookupCount st.domainPageNum (parseNetloc url) ≥ cfg.maxUrlsPerDomain) :
    (parseStep cfg st url depth links).visitedUrls = st.visitedUrls ∧
      lookupCount (parseStep cfg st url depth links).domainPageNum (parseNetloc url) =
        lookupCount st.domainPageNum (parseNetloc url) := by
  unfold parseStep
  split
  · exact ⟨rfl, rfl⟩
  split
  · exact ⟨rfl, rfl⟩
  split
  · exact ⟨rfl, rfl⟩
  split
  · exact ⟨rfl, by simp only; rw [lookupCount_ensureKey]⟩
  · rename_i h2
    rw [lookupCount_ensureKey] at h2
    omega

/-- The quota invariant holds at every reachable state of a crawl run. -/
theorem runSteps_invariant (cfg : SpiderConfig) (steps : List (Str × Nat × List Str)) :
    (runSteps cfg steps).visitedUrls.length ≤ cfg.maxTotalUrls ∧
      ∀ d, lookupCount (runSteps cfg steps).domainPageNum d ≤ cfg.maxUrlsPerDomain := by
  unfold runSteps
  have main : ∀ (l : List (Str × Nat × List Str)) (st : SpiderState),
      st.visitedUrls.length ≤ cfg.maxTotalUrls →
      (∀ d, lookupCount st.domainPageNum d ≤ cfg.maxUrlsPerDomain) →
      (l.foldl (fun st s => parseStep cfg st s.1 s.2.1 s.2.2) st).visitedUrls.length ≤
        cfg.maxTotalUrls ∧
      ∀ d, lookupCount
          (l.foldl (fun st s => parseStep cfg st s.1 s.2.1 s.2.2) st).domainPageNum d ≤
        cfg.maxUrlsPerDomain := by
    intro l
    induction l with
    | nil => exact fun st hv hc => ⟨hv, hc⟩
    | cons s rest ih =>
      intro st hv hc
      have h := parseStep_invariant cfg st s.1 s.2.1 s.2.2 hv hc
      exact ih _ h.1 h.2
  exact main steps SpiderState.init (by simp [SpiderState.init]) (fun d => by
    simp [SpiderState.init, lookupCount])

/-!
## UTASpider.resume_from_previous_crawl  (src/ref/crawler.py, lines 450-513)

Link extraction from saved artifacts (`extract_links_from_file`) goes
through BeautifulSoup / regex scans of on-disk files; a saved file is
modelled by the list of URLs that extraction yields for it.  The resume
procedure scans the saved files of each recorded domain in order and keeps
the admissible unvisited links of the first file that produces any
(`found_unvisited` short-circuits the remaining files and domains).
-/

/-- The per-URL filter of the resume loop:
`if self.is_valid_url(url) and url not in self.visited_urls`. -/
def resumableLinks (visited domainLimit excludeDomains : List Str)
    (extracted : List Str) : List Str :=
  extracted.filter (fun u =>
    isValidUrl visited domainLimit excludeDomains u && !visited.contains u)

/-- Scan one domain's saved files, stopping at the first file that yields
any resumable link. -/
def scanDomainFiles (visited domainLimit excludeDomains : List Str) :
    List (List Str) → List Str
  | [] => []
  | f :: fs =>
    let hits := resumableLinks visited domainLimit excludeDomains f
    if hits.isEmpty then scanDomainFiles visited domainLimit excludeDomains fs else hits

/-- `resume_from_previous_crawl`'s frontier reconstruction: scan the
domains of `domain_page_num` in order, stopping at the first domain whose
files yield resumable links; the result is the new `crawl_urls`. -/
def resumeCrawlUrls (visited domainLimit excludeDomains : List Str) :
    List (Str × List (List Str)) → List Str
  | [] => []
  | (_, files) :: rest =>
    let hits := scanDomainFiles visited domainLimit excludeDomains files
    if hits.isEmpty then resumeCrawlUrls visited domainLimit excludeDomains rest else hits

/-!
## normalize_url  (src/ref/dynamic_crawler.py, lines 201-224)

`normalize_url` prepends `scheme://domain` to relative URLs via
`urllib.parse.urljoin` and then strips a fragment unless the fragment part
contains a `/`.  `urljoin` itself is Python standard library (an external
collaborator); it is modelled below for absolute `scheme://netloc` bases:
a URL carrying its own scheme is returned unchanged, protocol-relative,
root-relative, fragment-only and plain relative references are resolved
against the base (dot-segment normalisation is irrelevant here and
omitted).
-/

/-- `c in s` on a Python string, for a single character. -/
def pyInChar (c : Char) : Str → Bool
  | [] => false
  | x :: xs => x = c || pyInChar c xs

/-- `url.split('#')` on Python strings: split at every occurrence. -/
def splitOnChar (c : Char) : Str → List Str
  | [] => [[]]
  | x :: xs =>
    match splitOnChar c xs with
    | [] => [[x]]
    | p :: ps => if x = c then [] :: p :: ps else (x :: p) :: ps

/-- The `scheme://netloc` part of an absolute base URL. -/
def schemeNetloc (base : Str) : Str :=
  base.takeWhile (fun c => c ≠ ':') ++ ':' :: '/' :: '/' :: parseNetloc base

/-- Model of `urllib.parse.urljoin` for an absolute `scheme://netloc` base. -/
def urljoin (base url : Str) : Str :=
  if hasScheme url then url
  else if pyStartswith url ('/' :: '/' :: []) then
    base.takeWhile (fun c => c ≠ ':') ++ ':' :: url
  else if pyStartswith url ('/' :: []) then schemeNetloc base ++ url
  else if pyStartswith url ('#' :: []) then base.takeWhile (fun c => c ≠ '#') ++ url
  else if url.isEmpty then base
  else schemeNetloc base ++ '/' :: url

/-- The inner `normalize_url(domain, scheme, url)` of
`DynamicWebCrawler._extract_links`: empty input maps to `None`; a URL not
starting with `http` is resolved against `scheme://domain`; then the
fragment is dropped unless the part after the first `#` contains a `/`. -/
def normalizeUrl (domain scheme url : Str) : Option Str :=
  if url = [] then none
  else
    let u2 := if pyStartswith url "http".toList then url
      else urljoin (scheme ++ ':' :: '/' :: '/' :: domain) url
    let parts := splitOnChar '#' u2
    if 1 < parts.length ∧ pyInChar '/' (parts.getD 1 []) = false then
      some (parts.headD [])
    else some u2

/-- `normalize_url` applied to an already-normalised optional value
(Python's falsy test sends `None` to `None`). -/
def normalizeOpt (domain scheme : Str) : Option Str → Option Str
  | none => none
  | some u => normalizeUrl domain scheme u

example : normalizeUrl "d.com".toList "https".toList "page.html".toList =
    some "https://d.com/page.html".toList := by decide
example : normalizeUrl "d.com".toList "https".toList "https://a/x#b".toList =
    some "https://a/x".toList := by decide
example : normalizeUrl "d.com".toList "https".toList "https://a/#b/c".toList =
    some "https://a/#b/c".toList := by decide
example : normalizeUrl "d.com".toList "https".toList [] = none := by decide
example : normalizeUrl "d.com".toList "https".toList "mailto:x@y.z#a".toList =
    some "mailto:x@y.z".toList := by decide

theorem pyStartswith_nil_right (a : Str) : pyStartswith a [] = true := by
  cases a <;> rfl

theorem pyStartswith_append (a b p : Str) (h : pyStartswith a p = true) :
    pyStartswith (a ++ b) p = true := by
  induction p generalizing a with
  | nil => exact pyStartswith_nil_right _
  | cons x xs ih =>
    cases a with
    | nil => simp [pyStartswith] at h
    | cons c cs =>
      simp only [pyStartswith, Bool.and_eq_true, decide_eq_true_eq] at h ⊢
      exact ⟨h.1, ih cs h.2⟩

theorem pyStartswith_takeWhile (p l : Str) (ch : Char)
    (h : pyStartswith l p = true) (hp : pyInChar ch p = false) :
    pyStartswith (l.takeWhile (fun c => c ≠ ch)) p = true := by
  induction p generalizing l with
  | nil => exact pyStartswith_nil_right _
  | cons x xs ih =>
    cases l with
    | nil => simp [pyStartswith] at h
    | cons c cs =>
      simp only [pyStartswith, Bool.and_eq_true, decide_eq_true_eq] at h
      simp only [pyInChar, Bool.or_eq_false_iff, decide_eq_false_iff_not] at hp
      have hcch : ¬c = ch := fun hc => hp.1 ((hc ▸ h.1 : ch = x).symm)
      simp only [List.takeWhile_cons, ne_eq, hcch, not_false_eq_true, decide_eq_true_eq,
        if_pos, pyStartswith, Bool.and_eq_true, decide_eq_true_eq]
      exact ⟨h.1, ih cs h.2 hp.2⟩

theorem pyInChar_takeWhile (l : Str) (ch : Char) :
    pyInChar ch (l.takeWhile (fun c => c ≠ ch)) = false := by
  induction l with
  | nil => rfl
  | cons c cs ih =>
    by_cases hc : c = ch
    · simp [List.takeWhile_cons, hc, pyInChar]
    · simp only [decide_not] at ih
      simp [List.takeWhile_cons, hc, pyInChar, ih]

theorem splitOnChar_ne_nil (c : Char) (l : Str) : splitOnChar c l ≠ [] := by
  cases l with
  | nil => simp [splitOnChar]
  | cons x xs =>
    simp only [splitOnChar]
    cases hs : splitOnChar c xs with
    | nil => simp
    | cons p ps => by_cases hx : x = c <;> simp [hx]

theorem splitOnChar_headD (c : Char) (l : Str) :
    (splitOnChar c l).headD [] = l.takeWhile (fun x => x ≠ c) := by
  induction l with
  | nil => rfl
  | cons x xs ih =>
    simp only [splitOnChar]
    cases hs : splitOnChar c xs with
    | nil => exact absurd hs (splitOnChar_ne_nil c xs)
    | cons p ps =>
      rw [hs] at ih
      simp only [List.headD_cons] at ih
      by_cases hx : x = c
      · simp [hx, List.takeWhile_cons]
      · simp [hx, List.takeWhile_cons, ih]

theorem splitOnChar_single (c : Char) (l : Str) (h : pyInChar c l = false) :
    splitOnChar c l = [l] := by
  induction l with
  | nil => rfl
  | cons x xs ih =>
    simp only [pyInChar, Bool.or_eq_false_iff, decide_eq_false_iff_not] at h
    simp [splitOnChar, ih h.2, h.1]

theorem hasScheme_ne_nil (l : Str) (h : hasScheme l = true) : l ≠ [] := by
  intro hl
  subst hl
  simp [hasScheme] at h

theorem urljoin_of_hasScheme (base u : Str) (h : hasScheme u = true) :
    urljoin base u = u := by
  simp [urljoin, h]

theorem takeWhile_takeWhile_bool (p q : Char → Bool) (l : Str) :
    (l.takeWhile q).takeWhile p = l.takeWhile (fun a => p a && q a) := by
  induction l with
  | nil => rfl
  | cons x xs ih =>
    by_cases hq : q x = true
    · by_cases hp : p x = true
      · simp [List.takeWhile_cons, hq, hp, ih]
      · rw [Bool.not_eq_true] at hp
        simp [List.takeWhile_cons, hq, hp]
    · rw [Bool.not_eq_true] at hq
      simp [List.takeWhile_cons, hq]

theorem takeWhile_strengthen (p q : Char → Bool) (l : Str)
    (h : ∀ c ∈ l.takeWhile q, p c = true) :
    l.takeWhile (fun c => q c && p c) = l.takeWhile q := by
  induction l with
  | nil => rfl
  | cons x xs ih =>
    by_cases hq : q x = true
    · have hx : p x = true := h x (by simp [List.takeWhile_cons, hq])
      have hrest : ∀ c ∈ xs.takeWhile q, p c = true := fun c hc =>
        h c (by simp [List.takeWhile_cons, hq, hc])
      simp [List.takeWhile_cons, hq, hx, ih hrest]
    · rw [Bool.not_eq_true] at hq
      simp [List.takeWhile_cons, hq]

theorem takeWhile_append_all (l1 l2 : Str) (p : Char → Bool) (h : ∀ c ∈ l1, p c = true) :
    (l1 ++ l2).takeWhile p = l1 ++ l2.takeWhile p := by
  induction l1 with
  | nil => rfl
  | cons x xs ih =>
    have hx : p x = true := h x (by simp)
    have hrest : ∀ c ∈ xs, p c = true := fun c hc => h c (by simp [hc])
    simp [List.takeWhile_cons, hx, ih hrest]

theorem dropWhile_head_false (p : Char → Bool) (l : Str) (x : Char) (xs : Str)
    (h : l.dropWhile p = x :: xs) : p x = false := by
  induction l with
  | nil => simp [List.dropWhile] at h
  | cons c cs ih =>
    by_cases hc : p c = true
    · rw [List.dropWhile_cons_of_pos hc] at h
      exact ih h
    · rw [Bool.not_eq_true] at hc
      rw [List.dropWhile_cons_of_neg (by simp [hc])] at h
      cases h
      exact hc

/-- Cutting a URL at its first `#` preserves wellformed-scheme-ness: the
scheme part contains no `#`, so the cut happens after the colon. -/
theorem hasScheme_takeWhile_hash (l : Str) (h : hasScheme l = true) :
    hasScheme (l.takeWhile (fun c => c ≠ '#')) = true := by
  unfold hasScheme at h ⊢
  cases ht : l.takeWhile (fun c => c ≠ ':') with
  | nil => rw [ht] at h; simp at h
  | cons c cs =>
    rw [ht] at h
    simp only [Bool.and_eq_true, decide_eq_true_eq] at h
    obtain ⟨⟨hlen, halpha⟩, hall⟩ := h
    have hallmem : ∀ x ∈ (c :: cs : Str), isSchemeChar x = true := by
      rw [← List.all_eq_true]
      exact hall
    have hnothash2 : ∀ x ∈ (c :: cs : Str), decide (x ≠ '#') = true := by
      intro x hx
      have hsc : isSchemeChar x = true := hallmem x hx
      simp only [decide_eq_true_eq]
      intro hxh
      rw [hxh] at hsc
      simp [isSchemeChar] at hsc
    have hA : (l.takeWhile (fun c => c ≠ '#')).takeWhile (fun c => c ≠ ':') = c :: cs := by
      rw [takeWhile_takeWhile_bool]
      rw [takeWhile_strengthen _ _ _ (fun x hx => hnothash2 x (ht ▸ hx))]
      exact ht
    rw [hA]
    simp only [Bool.and_eq_true, decide_eq_true_eq]
    refine ⟨⟨?_, halpha⟩, hall⟩
    have hsplit : l = (c :: cs) ++ l.dropWhile (fun c => c ≠ ':') := by
      conv_lhs => rw [← List.takeWhile_append_dropWhile (p := fun c => decide (c ≠ ':')) (l := l)]
      rw [ht]
    have hdrop_ne : l.dropWhile (fun c => c ≠ ':') ≠ [] := by
      intro hnil
      rw [hnil, List.append_nil] at hsplit
      rw [hsplit] at hlen
      omega
    obtain ⟨y, ys, hys⟩ : ∃ y ys, l.dropWhile (fun c => c ≠ ':') = y :: ys := by
      cases hd : l.dropWhile (fun c => c ≠ ':') with
      | nil => exact absurd hd hdrop_ne
      | cons y ys => exact ⟨y, ys, rfl⟩
    have hy : y = ':' := by
      have := dropWhile_head_false _ _ _ _ hys
      simpa using this
    rw [hys, hy] at hsplit
    have hl2 : l.takeWhile (fun c => c ≠ '#') =
        (c :: cs) ++ ':' :: ys.takeWhile (fun c => c ≠ '#') := by
      conv_lhs => rw [hsplit]
      rw [takeWhile_append_all _ _ _ hnothash2]
      simp [List.takeWhile_cons]
    rw [hl2]
    simp only [List.length_append, List.length_cons]
    omega

theorem pyStartswith_ne_nil (v : Str) (x : Char) (xs : Str)
    (h : pyStartswith v (x :: xs) = true) : v ≠ [] := by
  intro hv
  subst hv
  simp [pyStartswith] at h

/-- Joining against an `http(s)://…` base yields either a URL that carries
its own scheme (returned unchanged) or one that starts with `http`. -/
theorem urljoin_base_http (base u : Str) (hb : pyStartswith base "http".toList = true)
    (hu : u ≠ []) :
    hasScheme (urljoin base u) = true ∨
      pyStartswith (urljoin base u) "http".toList = true := by
  have hcolon : pyStartswith (base.takeWhile (fun c => c ≠ ':')) "http".toList = true :=
    pyStartswith_takeWhile _ _ ':' hb (by decide)
  have hhash : pyStartswith (base.takeWhile (fun c => c ≠ '#')) "http".toList = true :=
    pyStartswith_takeWhile _ _ '#' hb (by decide)
  have hsn : pyStartswith (schemeNetloc base) "http".toList = true := by
    unfold schemeNetloc
    exact pyStartswith_append _ _ _ hcolon
  unfold urljoin
  split
  · left; assumption
  split
  · right; exact pyStartswith_append _ _ _ hcolon
  split
  · right; exact pyStartswith_append _ _ _ hsn
  split
  · right; exact pyStartswith_append _ _ _ hhash
  split
  · rename_i hemp
    exact absurd (List.isEmpty_iff.mp hemp) hu
  · right; exact pyStartswith_append _ _ _ hsn

/-- The join-or-keep step of `normalize_url` is the identity on URLs that
start with `http` or carry their own scheme. -/
theorem normalize_join_self (base v : Str)
    (hv : pyStartswith v "http".toList = true ∨ hasScheme v = true) :
    (if pyStartswith v "http".toList then v else urljoin base v) = v := by
  by_cases hh : pyStartswith v "http".toList = true
  · rw [if_pos hh]
  · rcases hv with hv | hv
    · exact absurd hv hh
    · rw [if_neg hh]
      exact urljoin_of_hasScheme base v hv

/-- `normalize_url` returns a fragment-free normalised URL unchanged. -/
theorem normalizeUrl_nofrag (domain scheme v : Str)
    (hv : pyStartswith v "http".toList = true ∨ hasScheme v = true)
    (hnf : pyInChar '#' v = false) :
    normalizeUrl domain scheme v = some v := by
  have hne : v ≠ [] := by
    rcases hv with hv | hv
    · exact pyStartswith_ne_nil v _ _ hv
    · exact hasScheme_ne_nil v hv
  unfold normalizeUrl
  rw [if_neg hne]
  simp only [normalize_join_self _ _ hv, splitOnChar_single '#' v hnf]
  simp

/-- `normalize_url` returns its input when the fragment test already said
"keep the URL whole". -/
theorem normalizeUrl_keep (domain scheme v : Str)
    (hv : pyStartswith v "http".toList = true ∨ hasScheme v = true)
    (hfrag : ¬(1 < (splitOnChar '#' v).length ∧
      pyInChar '/' ((splitOnChar '#' v).getD 1 []) = false)) :
    normalizeUrl domain scheme v = some v := by
  have hne : v ≠ [] := by
    rcases hv with hv | hv
    · exact pyStartswith_ne_nil v _ _ hv
    · exact hasScheme_ne_nil v hv
  unfold normalizeUrl
  rw [if_neg hne]
  simp only [normalize_join_self _ _ hv]
  rw [if_neg hfrag]

theorem normalizeUrl_idem_aux (domain scheme url : Str)
    (hs : scheme = "http".toList ∨ scheme = "https".toList) :
    normalizeOpt domain scheme (normalizeUrl domain scheme url) =
      normalizeUrl domain scheme url := by
  by_cases hnil : url = []
  · subst hnil
    simp [normalizeUrl, normalizeOpt]
  · have hbase : pyStartswith (scheme ++ ':' :: '/' :: '/' :: domain) "http".toList = true := by
      rcases hs with h | h <;> subst h <;> simp [pyStartswith]
    have hv : pyStartswith (if pyStartswith url "http".toList then url
        else urljoin (scheme ++ ':' :: '/' :: '/' :: domain) url) "http".toList = true ∨
        hasScheme (if pyStartswith url "http".toList then url
        else urljoin (scheme ++ ':' :: '/' :: '/' :: domain) url) = true := by
      by_cases hh : pyStartswith url "http".toList = true
      · rw [if_pos hh]
        exact Or.inl hh
      · rw [if_neg hh]
        rcases urljoin_base_http _ url hbase hnil with h | h
        · exact Or.inr h
        · exact Or.inl h
    set v := if pyStartswith url "http".toList then url
      else urljoin (scheme ++ ':' :: '/' :: '/' :: domain) url with hvdef
    have hval : normalizeUrl domain scheme url =
        if 1 < (splitOnChar '#' v).length ∧
            pyInChar '/' ((splitOnChar '#' v).getD 1 []) = false then
          some ((splitOnChar '#' v).headD [])
        else some v := by
      unfold normalizeUrl
      rw [if_neg hnil, ← hvdef]
    rw [hval]
    by_cases hcond : 1 < (splitOnChar '#' v).length ∧
        pyInChar '/' ((splitOnChar '#' v).getD 1 []) = false
    · rw [if_pos hcond]
      show normalizeUrl domain scheme ((splitOnChar '#' v).headD []) = _
      rw [splitOnChar_headD]
      refine normalizeUrl_nofrag domain scheme _ ?_ (pyInChar_takeWhile v '#')
      rcases hv with hv | hv
      · exact Or.inl (pyStartswith_takeWhile _ _ '#' hv (by decide))
      · exact Or.inr (hasScheme_takeWhile_hash v hv)
    · rw [if_neg hcond]
      show normalizeUrl domain scheme v = _
      exact normalizeUrl_keep domain scheme v hv hcond

/-!
## PageElement and ElementPrioritizer
(src/parser/page.py, lines 8-16; src/parser/element_prioritizer.py)

Python float arithmetic is modelled over `ℚ`; every constant involved is a
decimal literal, and the claims proved below (bounds after the final
clamp) are insensitive to rounding.
-/

/-- Python `min` on two floats (first argument on ties). -/
def pyMin (a b : ℚ) : ℚ := if a ≤ b then a else b

/-- Python `max` on two floats (first argument on ties). -/
def pyMax (a b : ℚ) : ℚ := if b ≤ a then a else b

/-- The `PageElement` dataclass. -/
structure PageElement where
  tag : String
  text : String
  attributes : List (String × String)
  xpath : Option String := none
  priorityScore : ℚ := 0
  elementType : String := "unknown"

/-- Substring test on `String`s, via the Python model. -/
def strContains (hay sub : String) : Bool :=
  pyContains hay.toList sub.toList

/-- `s.lower()` on `String`s. -/
def strLower (s : String) : String :=
  String.mk (pyLower s.toList)

/-- `s.strip()` on `String`s. -/
def strStrip (s : String) : String :=
  String.mk (((s.toList.dropWhile Char.isWhitespace).reverse.dropWhile
    Char.isWhitespace).reverse)

/-- `s.isupper()`: some cased character, and every cased character upper. -/
def pyIsUpper (s : String) : Bool :=
  s.toList.any (fun c => c.isUpper || c.isLower) &&
    s.toList.all (fun c => !(c.isUpper || c.isLower) || c.isUpper)

/-- First-match dictionary access with a default. -/
def getAttrD (attrs : List (String × String)) (k : String) (dflt : String) : String :=
  match attrs with
  | [] => dflt
  | (k2, v) :: rest => if k2 = k then v else getAttrD rest k dflt

/-- `dict.get` returning an optional value. -/
def getAttr (attrs : List (String × String)) (k : String) : Option String :=
  match attrs with
  | [] => none
  | (k2, v) :: rest => if k2 = k then some v else getAttr rest k

/-- `ElementPrioritizer.element_type_weights`. -/
def elementTypeWeights : List (String × ℚ) :=
  [("navigation", 0.9), ("button", 0.8), ("link", 0.7), ("form", 0.75),
   ("header", 0.6), ("content", 0.4), ("media", 0.5), ("unknown", 0.1)]

/-- Weight lookup with the `0.1` default of `dict.get`. -/
def lookupWeight (m : List (String × ℚ)) (k : String) : ℚ :=
  match m with
  | [] => 0.1
  | (k2, v) :: rest => if k2 = k then v else lookupWeight rest k

/-- `ElementPrioritizer.important_keywords` with the per-category boost of
`_analyze_text_content`. -/
def importantKeywords : List (ℚ × List String) :=
  [(0.3, ["nav", "menu", "navigation", "navbar", "header"]),
   (0.25, ["login", "signup", "register", "submit", "search", "buy", "purchase",
     "order", "checkout"]),
   (0.2, ["settings", "config", "preferences", "options", "account", "profile"]),
   (0.15, ["main", "primary", "hero", "featured", "important", "key"]),
   (0.1, ["content", "article", "text", "body", "description"])]

/-- `ElementPrioritizer._analyze_text_content`. -/
def analyzeTextContent (text : String) : ℚ :=
  if text = "" then 0
  else
    let textLower := strLower text
    let boost : ℚ := (importantKeywords.map (fun cat =>
      ((cat.2.filter (fun kw => strContains textLower kw)).length : ℚ) * cat.1)).sum
    let boost := boost + (if text.length ≤ 20 ∧ strStrip text ≠ "" then 0.1 else 0)
    let boost := boost + (if pyIsUpper text = true ∧ 2 < text.length then 0.1 else 0)
    pyMin 0.5 boost

/-- `ElementPrioritizer.priority_classes` with the per-tier boost of
`_analyze_attributes` (the `low` tier subtracts). -/
def priorityClasses : List (ℚ × List String) :=
  [(0.3, ["nav", "navbar", "navigation", "menu", "header", "btn-primary",
     "main-nav", "primary-nav"]),
   (0.2, ["btn", "button", "link", "menu-item", "nav-item", "settings"]),
   (-0.1, ["footer", "sidebar", "aside", "advertisement", "ad"])]

/-- `ElementPrioritizer._analyze_attributes`. -/
def analyzeAttributes (attributes : List (String × String)) : ℚ :=
  let classNames := strLower (getAttrD attributes "class" "")
  let boost : ℚ := if classNames ≠ "" then
      (priorityClasses.map (fun tier =>
        ((tier.2.filter (fun cls => strContains classNames cls)).length : ℚ) * tier.1)).sum
    else 0
  let elementId := strLower (getAttrD attributes "id" "")
  let boost := boost + (if elementId ≠ "" ∧
      (["nav", "menu", "header", "main"].any (fun kw => strContains elementId kw)) = true
    then 0.2 else 0)
  let role := strLower (getAttrD attributes "role" "")
  let boost := boost +
    (if role ≠ "" then
      if role ∈ ["navigation", "menu", "menubar", "button"] then 0.25
      else if role ∈ ["main", "primary"] then 0.2
      else 0
    else 0)
  let boost := boost + (if (getAttr attributes "href").isSome ∧
      strLower (getAttrD attributes "href" "") ≠ "" ∧
      pyStartswith (strLower (getAttrD attributes "href" "")).toList ('#' :: []) = false
    then 0.15 else 0)
  let boost := boost + (attributes.map (fun kv =>
    if pyStartswith kv.1.toList "data-".toList = true ∧
        (["nav", "menu", "action", "button"].any
          (fun kw => strContains (strLower kv.2) kw)) = true
      then (0.1 : ℚ) else 0)).sum
  pyMin 0.4 boost

/-- `ElementPrioritizer._analyze_tag_importance`. -/
def analyzeTagImportance (tag : String) : ℚ :=
  let tagLower := strLower tag
  if tagLower ∈ ["nav", "header", "main"] then 0.2
  else if tagLower ∈ ["button", "a", "form", "input"] then 0.15
  else if tagLower ∈ ["h1", "h2", "h3", "h4", "h5", "h6"] then
    0.2 - (((tagLower.toList.getD 1 '0').toNat - 48 : ℕ) : ℚ) * 0.02
  else if tagLower ∈ ["article", "section", "aside"] then 0.1
  else 0

/-- `ElementPrioritizer.calculate_priority`: type weight plus text,
attribute and tag boosts, clamped into `[0, 1]`. -/
def calculatePriority (element : PageElement) : ℚ :=
  let score : ℚ := 0 + lookupWeight elementTypeWeights element.elementType
    + analyzeTextContent element.text
    + analyzeAttributes element.attributes
    + analyzeTagImportance element.tag
  pyMin 1 (pyMax 0 score)

theorem calculatePriority_nonneg (element : PageElement) :
    0 ≤ calculatePriority element := by
  unfold calculatePriority pyMin pyMax
  dsimp only
  split
  · norm_num
  · split
    · norm_num
    · rename_i h2
      push_neg at h2
      linarith

theorem calculatePriority_le_one (element : PageElement) :
    calculatePriority element ≤ 1 := by
  unfold calculatePriority pyMin pyMax
  dsimp only
  split
  · norm_num
  · rename_i h
    push_neg at h
    split
    · norm_num
    · rename_i h2
      push_neg at h2
      linarith

/-!
## HTMLParser  (src/page/html_parser.py)

BeautifulSoup documents are modelled as trees of element, text and
comment nodes (`html.parser` builds exactly the written markup: it does
not synthesise `html`/`body` wrappers, and an empty input parses to an
empty document).  The cleaning pipeline of `HTMLParser.clean_html` is
embedded over that tree.
-/

mutual
inductive HNode where
  | elem (tag : String) (attrs : List (String × String)) (children : HNodes)
  | text (s : String)
  | comment (s : String)
inductive HNodes where
  | nil
  | cons (head : HNode) (tail : HNodes)
end

def appendH : HNodes → HNodes → HNodes
  | .nil, ms => ms
  | .cons n ns, ms => .cons n (appendH ns ms)

/-- `HTMLParser.preserve_tags`. -/
def preserveTags : List String :=
  ["hr", "br", "img", "video", "input", "meta", "link", "textarea"]

/-- `HTMLParser.allowed_attrs`. -/
def allowedAttrs : List String :=
  ["href", "src", "type", "id", "class", "role", "name", "title",
   "aria-expanded", "aria-label", "data-icon"]

/-- Serialisation of attributes as ` name="value"` pairs. -/
def serializeAttrs (attrs : List (String × String)) : String :=
  attrs.foldl (fun acc kv => acc ++ " " ++ kv.1 ++ "=\"" ++ kv.2 ++ "\"") ""

mutual
/-- `str(node)`: the markup of a node (text nodes contribute their text). -/
def serializeN : HNode → String
  | .elem t a cs => "<" ++ t ++ serializeAttrs a ++ ">" ++ serializeNs cs ++ "</" ++ t ++ ">"
  | .text s => s
  | .comment s => "<!--" ++ s ++ "-->"
def serializeNs : HNodes → String
  | .nil => ""
  | .cons n ns => serializeN n ++ serializeNs ns
end

mutual
def countElemsN : HNode → Nat
  | .elem _ _ cs => 1 + countElemsNs cs
  | _ => 0
def countElemsNs : HNodes → Nat
  | .nil => 0
  | .cons n ns => countElemsN n + countElemsNs ns
end

mutual
/-- Inside `head`, `_clean_head` decomposes every descendant element other
than `title`. -/
def stripNonTitleN : HNode → HNodes
  | .elem t a cs =>
    if t = "title" then .cons (.elem t a (stripNonTitleNs cs)) .nil else .nil
  | n => .cons n .nil
def stripNonTitleNs : HNodes → HNodes
  | .nil => .nil
  | .cons n ns => appendH (stripNonTitleN n) (stripNonTitleNs ns)
end

mutual
/-- `_clean_head`: the first `head` element (document order) has its
non-`title` descendants removed; the Bool records whether it was found. -/
def cleanHeadN : HNode → Bool → HNode × Bool
  | .elem t a cs, done =>
    if done then (.elem t a cs, true)
    else if t = "head" then (.elem t a (stripNonTitleNs cs), true)
    else
      let p := cleanHeadNs cs false
      (.elem t a p.1, p.2)
  | n, done => (n, done)
def cleanHeadNs : HNodes → Bool → HNodes × Bool
  | .nil, done => (.nil, done)
  | .cons n ns, done =>
    let p := cleanHeadN n done
    let q := cleanHeadNs ns p.2
    (.cons p.1 q.1, q.2)
end

def cleanHead (doc : HNodes) : HNodes := (cleanHeadNs doc false).1

mutual
/-- `soup.find_all([...])` + `decompose()`: drop every element whose tag is
in the list, subtree included. -/
def removeTagsN (bad : List String) : HNode → HNodes
  | .elem t a cs => if t ∈ bad then .nil else .cons (.elem t a (removeTagsNs bad cs)) .nil
  | n => .cons n .nil
def removeTagsNs (bad : List String) : HNodes → HNodes
  | .nil => .nil
  | .cons n ns => appendH (removeTagsN bad n) (removeTagsNs bad ns)
end

mutual
/-- `find_all(attrs={'role': 'tooltip'})` + `decompose()`. -/
def removeTooltipsN : HNode → HNodes
  | .elem t a cs =>
    if getAttr a "role" = some "tooltip" then .nil
    else .cons (.elem t a (removeTooltipsNs cs)) .nil
  | n => .cons n .nil
def removeTooltipsNs : HNodes → HNodes
  | .nil => .nil
  | .cons n ns => appendH (removeTooltipsN n) (removeTooltipsNs ns)
end

/-- The attribute allow-listing of `_clean_elements`: `img`/`svg` elements
additionally lose `src`. -/
def filterAttrs (tag : String) (attrs : List (String × String)) : List (String × String) :=
  if tag = "img" ∨ tag = "svg" then
    attrs.filter (fun kv => kv.1 ∈ allowedAttrs ∧ kv.1 ≠ "src")
  else attrs.filter (fun kv => kv.1 ∈ allowedAttrs)

mutual
def cleanAttrsN : HNode → HNode
  | .elem t a cs => .elem t (filterAttrs t a) (cleanAttrsNs cs)
  | n => n
def cleanAttrsNs : HNodes → HNodes
  | .nil => .nil
  | .cons n ns => .cons (cleanAttrsN n) (cleanAttrsNs ns)
end

mutual
/-- `comment.extract()` over every `Comment` node. -/
def removeCommentsN : HNode → HNodes
  | .elem t a cs => .cons (.elem t a (removeCommentsNs cs)) .nil
  | .comment _ => .nil
  | n => .cons n .nil
def removeCommentsNs : HNodes → HNodes
  | .nil => .nil
  | .cons n ns => appendH (removeCommentsN n) (removeCommentsNs ns)
end

/-- `_clean_elements`, in source order: unwanted tags, tooltips, attribute
allow-listing, comments. -/
def cleanElements (doc : HNodes) : HNodes :=
  let doc := removeTagsNs ["script", "style", "source", "path"] doc
  let doc := removeTooltipsNs doc
  let doc := cleanAttrsNs doc
  removeCommentsNs doc

/-- The removal condition of `_remove_empty_elements`: not preserved, no
attributes, and the joined serialised contents strip to empty. -/
def isRemovableEmpty (tag : String) (attrs : List (String × String)) (cs : HNodes) : Bool :=
  tag ∉ preserveTags ∧ attrs = [] ∧ strStrip (serializeNs cs) = ""

mutual
/-- One pass of the `_remove_empty_elements` loop body: decompose the first
(document-order) removable-empty element, reporting whether one was found. -/
def removeFirstEmptyN : HNode → Option HNodes
  | .elem t a cs =>
    if isRemovableEmpty t a cs then some .nil
    else
      match removeFirstEmptyNs cs with
      | some cs2 => some (.cons (.elem t a cs2) .nil)
      | none => none
  | _ => none
def removeFirstEmptyNs : HNodes → Option HNodes
  | .nil => none
  | .cons n ns =>
    match removeFirstEmptyN n with
    | some rep => some (appendH rep ns)
    | none =>
      match removeFirstEmptyNs ns with
      | some ns2 => some (.cons n ns2)
      | none => none
end

/-- The `while True` loop of `_remove_empty_elements`; each successful pass
removes at least one element, so `countElemsNs + 1` passes reach the fixed
point. -/
def removeEmptyLoop : Nat → HNodes → HNodes
  | 0, ns => ns
  | fuel + 1, ns =>
    match removeFirstEmptyNs ns with
    | some ns2 => removeEmptyLoop fuel ns2
    | none => ns

def removeEmptyElements (doc : HNodes) : HNodes :=
  removeEmptyLoop (countElemsNs doc + 1) doc

mutual
/-- `soup.find(tag)`: first matching element in document order. -/
def findTagN (t : String) : HNode → Option HNode
  | .elem tag a cs => if tag = t then some (.elem tag a cs) else findTagNs t cs
  | _ => none
def findTagNs (t : String) : HNodes → Option HNode
  | .nil => none
  | .cons n ns =>
    match findTagN t n with
    | some r => some r
    | none => findTagNs t ns
end

/-- `soup.find('title').string if soup.find('title') else "No title"`: the
single text child of the first `title`, Python's `None` rendering as the
string `"None"` inside the f-string. -/
def pageTitleText (doc : HNodes) : String :=
  match findTagNs "title" doc with
  | some (.elem _ _ (.cons (.text s) .nil)) => s
  | some _ => "None"
  | none => "No title"

/-- The stamp fragment of `_add_title_info`, as `html.parser` parses the
f-string (whitespace text nodes included). -/
def stampNodes (url titleText : String) : HNodes :=
  .cons (.text "\n            ")
    (.cons (.elem "div" [("class", "page-info")]
      (.cons (.text "\n                ")
        (.cons (.elem "h1" [("class", "page-url")] (.cons (.text url) .nil))
          (.cons (.text "\n                ")
            (.cons (.elem "h2" [("class", "page-title")] (.cons (.text titleText) .nil))
              (.cons (.text "\n                ")
                (.cons (.elem "hr" [] .nil)
                  (.cons (.text "\n            ") .nil))))))))
      (.cons (.text "\n            ") .nil))

mutual
/-- `body.insert(0, stamp)` into the first `body` element. -/
def addStampN (stamp : HNodes) : HNode → Bool → HNode × Bool
  | .elem t a cs, done =>
    if done then (.elem t a cs, true)
    else if t = "body" then (.elem t a (appendH stamp cs), true)
    else
      let p := addStampNs stamp cs false
      (.elem t a p.1, p.2)
  | n, done => (n, done)
def addStampNs (stamp : HNodes) : HNodes → Bool → HNodes × Bool
  | .nil, done => (.nil, done)
  | .cons n ns, done =>
    let p := addStampN stamp n done
    let q := addStampNs stamp ns p.2
    (.cons p.1 q.1, q.2)
end

/-- `_add_title_info`: prepend the provenance stamp to the first `body`;
a document without `body` is left unchanged. -/
def addTitleInfo (doc : HNodes) (url : String) : HNodes :=
  (addStampNs (stampNodes url (pageTitleText doc)) doc false).1

/-- `HTMLParser.clean_html` on a parsed document. -/
def cleanHtml (doc : HNodes) (url : String) : HNodes :=
  let doc := cleanHead doc
  let doc := cleanElements doc
  let doc := removeEmptyElements doc
  addTitleInfo doc url

mutual
/-- Does any element of the tree satisfy `p`? -/
def anyElemN (p : String → List (String × String) → HNodes → Bool) : HNode → Bool
  | .elem t a cs => p t a cs || anyElemNs p cs
  | _ => false
def anyElemNs (p : String → List (String × String) → HNodes → Bool) : HNodes → Bool
  | .nil => false
  | .cons n ns => anyElemN p n || anyElemNs p ns
end

/-- The tags of the element children of a node list (text nodes skipped). -/
def elemChildTags : HNodes → List String
  | .nil => []
  | .cons (.elem t _ _) ns => t :: elemChildTags ns
  | .cons _ ns => elemChildTags ns

/-!
## HTMLParser._classify_element  (src/page/html_parser.py, lines 186-218)
-/

/-- `tag.get('class', [])`: the whitespace-tokenised class list of bs4. -/
def getClassList (attrs : List (String × String)) : List Str :=
  match getAttr attrs "class" with
  | none => []
  | some v => (splitOnChar ' ' v.toList).filter (fun w => w ≠ [])

/-- Truthiness of `tag.get('href')`. -/
def hrefTruthy (attrs : List (String × String)) : Bool :=
  match getAttr attrs "href" with
  | some s => s ≠ ""
  | none => false

/-- `HTMLParser._classify_element`, rule for rule in source order. -/
def classifyElement (tagName : String) (attrs : List (String × String)) : String :=
  let t := strLower tagName
  if t = "nav" ∨ "nav".toList ∈ getClassList attrs then "navigation"
  else if (t = "button" ∨ t = "input") ∧ getAttr attrs "type" = some "submit" then "button"
  else if t = "a" ∧ hrefTruthy attrs = true then "link"
  else if t ∈ ["form", "input", "textarea", "select"] then "form"
  else if t ∈ ["h1", "h2", "h3", "h4", "h5", "h6"] then "header"
  else if t ∈ ["p", "div", "span", "article", "section"] then "content"
  else if t ∈ ["img", "video", "audio"] then "media"
  else "unknown"

example : classifyElement "button" [] = "unknown" := by decide
example : classifyElement "button" [("type", "submit")] = "button" := by decide
example : classifyElement "input" [("type", "submit")] = "button" := by decide
example : classifyElement "input" [("type", "text")] = "form" := by decide
example : classifyElement "nav" [] = "navigation" := by decide
example : classifyElement "div" [("class", "nav bar")] = "navigation" := by decide

/-- The C6 example document
`<html><head><script>x</script><title>T</title></head><body><p></p><div class="x">Hi</div></body></html>`
as parsed by `html.parser`. -/
def exampleDoc : HNodes :=
  .cons (.elem "html" []
    (.cons (.elem "head" []
      (.cons (.elem "script" [] (.cons (.text "x") .nil))
        (.cons (.elem "title" [] (.cons (.text "T") .nil)) .nil)))
      (.cons (.elem "body" []
        (.cons (.elem "p" [] .nil)
          (.cons (.elem "div" [("class", "x")] (.cons (.text "Hi") .nil)) .nil)))
        .nil)))
    .nil

example : anyElemNs (fun t _ _ => t = "script") (cleanHtml exampleDoc "http://e.com") =
    false := by decide
example :
    (match findTagNs "head" (cleanHtml exampleDoc "http://e.com") with
      | some (.elem _ _ cs) => elemChildTags cs
      | _ => []) = ["title"] := by decide
example : anyElemNs (fun t a cs => t = "p" && isRemovableEmpty t a cs)
    (cleanHtml exampleDoc "http://e.com") = false := by decide
/-- Does the node list consist of exactly one text node with this text? -/
def singleText (cs : HNodes) (s : String) : Bool :=
  match cs with
  | .cons (.text t) .nil => t = s
  | _ => false

example : anyElemNs (fun t a cs => t = "div" && decide (("class", "x") ∈ a) &&
    singleText cs "Hi") (cleanHtml exampleDoc "http://e.com") = true := by
  decide
example : cleanHtml .nil "http://e.com" = .nil := by rfl

/-!
## Page hashing  (src/parser/page.py, lines 44-47 and 68-71)

The MD5 digest (`hashlib`, an external collaborator) is abstracted as an
arbitrary function `md5hex` of the hashed content string; every property
proved below holds for any such function, in particular for MD5.
-/

/-- The character slice `s[:n]`. -/
def pySlice (s : String) (n : Nat) : String := String.mk (s.toList.take n)

/-- The content string of `Page._generate_hash`:
`f"{url}_{raw_html[:1000] if raw_html else ''}"`. -/
def hashContent (url rawHtml : String) : String :=
  url ++ "_" ++ (if rawHtml ≠ "" then pySlice rawHtml 1000 else "")

/-- The fields of `Page` involved in change detection. -/
structure Page where
  url : String
  rawHtml : String
  pageHash : String

/-- `Page.__init__` setting `page_hash = self._generate_hash()`. -/
def mkPage (md5hex : String → String) (url rawHtml : String) : Page :=
  ⟨url, rawHtml, md5hex (hashContent url rawHtml)⟩

/-- `Page.has_changed`:
`md5(f"{self.url}_{new_html[:1000]}") != self.page_hash`. -/
def hasChanged (md5hex : String → String) (p : Page) (newHtml : String) : Bool :=
  md5hex (p.url ++ "_" ++ pySlice newHtml 1000) ≠ p.pageHash

theorem hashContent_eq (url rawHtml : String) :
    hashContent url rawHtml = url ++ "_" ++ pySlice rawHtml 1000 := by
  unfold hashContent
  split
  · rfl
  · rename_i h
    push_neg at h
    subst h
    rfl

/-!
## Claim theorems
-/

/-- C1: at every reachable state of a crawl run the number of visited URLs
is at most `max_total_urls` and every domain count is at most the per-domain
quota; moreover a `parse` step on a URL whose domain has reached the quota
changes neither the visited set nor that domain's count, and counts never
decrease, so a domain at quota stays unprocessed for the rest of the run. -/
theorem spider_quota_invariant (cfg : SpiderConfig) (steps : List (Str × Nat × List Str))
    (st : SpiderState) (url : Str) (depth : Nat) (links : List Str) (d : Str)
    (hq : cfg.maxUrlsPerDomain ≤ lookupCount st.domainPageNum (parseNetloc url)) :
    ((runSteps cfg steps).visitedUrls.length ≤ cfg.maxTotalUrls ∧
      ∀ d2, lookupCount (runSteps cfg steps).domainPageNum d2 ≤ cfg.maxUrlsPerDomain) ∧
    ((parseStep cfg st url depth links).visitedUrls = st.visitedUrls ∧
      lookupCount (parseStep cfg st url depth links).domainPageNum (parseNetloc url) =
        lookupCount st.domainPageNum (parseNetloc url)) ∧
    lookupCount st.domainPageNum d ≤
      lookupCount (parseStep cfg st url depth links).domainPageNum d :=
  ⟨runSteps_invariant cfg steps,
   parseStep_at_quota cfg st url depth links hq,
   parseStep_count_mono cfg st url depth links d⟩

/-- C1 witness: a concrete state whose domain is at quota. -/
theorem spider_quota_invariant_witness :
    (1 ≤ lookupCount [("d.com".toList, 1)] (parseNetloc "https://d.com/x".toList)) ∧
    ((runSteps ⟨2, 1, 10, [], []⟩ [("https://d.com/x".toList, 0, [])]).visitedUrls.length ≤ 2 ∧
      ∀ d2, lookupCount
        (runSteps ⟨2, 1, 10, [], []⟩ [("https://d.com/x".toList, 0, [])]).domainPageNum d2 ≤ 1) ∧
    ((parseStep ⟨2, 1, 10, [], []⟩ ⟨[], [("d.com".toList, 1)], []⟩ "https://d.com/x".toList 0
        []).visitedUrls = (⟨[], [("d.com".toList, 1)], []⟩ : SpiderState).visitedUrls ∧
      lookupCount (parseStep ⟨2, 1, 10, [], []⟩ ⟨[], [("d.com".toList, 1)], []⟩
          "https://d.com/x".toList 0 []).domainPageNum (parseNetloc "https://d.com/x".toList) =
        lookupCount [("d.com".toList, 1)] (parseNetloc "https://d.com/x".toList)) ∧
    lookupCount [("d.com".toList, 1)] "d.com".toList ≤
      lookupCount (parseStep ⟨2, 1, 10, [], []⟩ ⟨[], [("d.com".toList, 1)], []⟩
        "https://d.com/x".toList 0 []).domainPageNum "d.com".toList :=
  ⟨by decide,
   spider_quota_invariant ⟨2, 1, 10, [], []⟩ [("https://d.com/x".toList, 0, [])]
     ⟨[], [("d.com".toList, 1)], []⟩ "https://d.com/x".toList 0 [] "d.com".toList (by decide)⟩

/-- C2: every page element's priority score is between 0 and 1: the score is
the clamp `min(1.0, max(0.0, score))` of the summed contributions. -/
theorem score_bounds (element : PageElement) :
    0 ≤ calculatePriority element ∧ calculatePriority element ≤ 1 :=
  ⟨calculatePriority_nonneg element, calculatePriority_le_one element⟩

/-- C5 counterexample: cleaning the empty (hence unparseable) document
yields the empty document, which does not contain the provenance stamp
(`div class="page-info"`), contradicting the claim that an empty input
yields a document containing only the stamp. -/
theorem clean_empty_no_stamp :
    cleanHtml .nil "http://example.com" = .nil ∧
      anyElemNs (fun _ a _ => decide (("class", "page-info") ∈ a))
        (cleanHtml .nil "http://example.com") = false :=
  ⟨rfl, by decide⟩

/-- C5 amended: `clean_html` is a total function of the parsed document (it
cannot raise), and an empty or unparseable input yields the empty document —
without a provenance stamp, since `_add_title_info` only inserts the stamp
when a `body` element exists. -/
theorem clean_empty_input (url : String) : cleanHtml .nil url = .nil := rfl

/-- C6: cleaning the example document removes the `script` node, leaves the
`head` with the `title` as its only element child, removes the empty `p`,
and keeps the `div` with its class attribute and text. -/
theorem cleaner_removes_noise :
    anyElemNs (fun t _ _ => t = "script") (cleanHtml exampleDoc "http://e.com") = false ∧
    (match findTagNs "head" (cleanHtml exampleDoc "http://e.com") with
      | some (.elem _ _ cs) => elemChildTags cs
      | _ => []) = ["title"] ∧
    anyElemNs (fun t a cs => t = "p" && isRemovableEmpty t a cs)
      (cleanHtml exampleDoc "http://e.com") = false ∧
    anyElemNs (fun t a cs => t = "div" && decide (("class", "x") ∈ a) && singleText cs "Hi")
      (cleanHtml exampleDoc "http://e.com") = true :=
  ⟨by decide, by decide, by decide, by decide⟩

/-- C9: normalising a URL twice gives the same result as normalising once,
for the http/https schemes a crawled page can have. -/
theorem normalize_idempotent (domain url : Str) (scheme : Str)
    (hs : scheme = "http".toList ∨ scheme = "https".toList) :
    normalizeOpt domain scheme (normalizeUrl domain scheme url) =
      normalizeUrl domain scheme url :=
  normalizeUrl_idem_aux domain scheme url hs

/-- C9 witness: idempotence at a concrete relative URL with a fragment. -/
theorem normalize_idempotent_witness :
    ("https".toList = "http".toList ∨ "https".toList = "https".toList) ∧
    normalizeOpt "d.com".toList "https".toList
        (normalizeUrl "d.com".toList "https".toList "page#frag".toList) =
      normalizeUrl "d.com".toList "https".toList "page#frag".toList :=
  ⟨Or.inr rfl, normalize_idempotent "d.com".toList "page#frag".toList "https".toList
    (Or.inr rfl)⟩

/-- C10: the page hash depends only on the URL and the first 1000 characters
of the raw HTML, and `has_changed` returns `False` whenever the new HTML
agrees with the stored one on that prefix — for any digest function. -/
theorem page_hash_prefix_only (md5hex : String → String) (url raw raw2 newHtml : String)
    (hpre : pySlice newHtml 1000 = pySlice raw 1000)
    (hpre2 : pySlice raw2 1000 = pySlice raw 1000) :
    hasChanged md5hex (mkPage md5hex url raw) newHtml = false ∧
      (mkPage md5hex url raw2).pageHash = (mkPage md5hex url raw).pageHash := by
  constructor
  · unfold hasChanged mkPage
    simp only [hashContent_eq, hpre]
    simp
  · unfold mkPage
    simp only [hashContent_eq, hpre2]

/-- C10 witness: two documents agreeing on their first 1000 characters but
differing at position 1001. -/
theorem page_hash_prefix_only_witness :
    (pySlice (String.mk (List.replicate 1000 'a' ++ ['b'])) 1000 =
      pySlice (String.mk (List.replicate 1001 'a')) 1000) ∧
    hasChanged id (mkPage id "u" (String.mk (List.replicate 1001 'a')))
        (String.mk (List.replicate 1000 'a' ++ ['b'])) = false ∧
      (mkPage id "u" (String.mk (List.replicate 1000 'a' ++ ['c']))).pageHash =
        (mkPage id "u" (String.mk (List.replicate 1001 'a'))).pageHash := by
  have h1 : pySlice (String.mk (List.replicate 1000 'a' ++ ['b'])) 1000 =
      pySlice (String.mk (List.replicate 1001 'a')) 1000 := by
    show String.mk ((List.replicate 1000 'a' ++ ['b']).take 1000) =
      String.mk ((List.replicate 1001 'a').take 1000)
    rw [List.take_append_of_le_length (by rw [List.length_replicate]),
      List.take_replicate, List.take_replicate]
    norm_num
  have h2 : pySlice (String.mk (List.replicate 1000 'a' ++ ['c'])) 1000 =
      pySlice (String.mk (List.replicate 1001 'a')) 1000 := by
    show String.mk ((List.replicate 1000 'a' ++ ['c']).take 1000) =
      String.mk ((List.replicate 1001 'a').take 1000)
    rw [List.take_append_of_le_length (by rw [List.length_replicate]),
      List.take_replicate, List.take_replicate]
    norm_num
  exact ⟨h1, page_hash_prefix_only id "u" (String.mk (List.replicate 1001 'a'))
    (String.mk (List.replicate 1000 'a' ++ ['c']))
    (String.mk (List.replicate 1000 'a' ++ ['b'])) h1 h2⟩

theorem http_prefix_not_hash (url : Str)
    (h : (pyStartswith url "http://".toList || pyStartswith url "https://".toList) = true) :
    pyStartswith url ('#' :: []) = false := by
  have e1 : "http://".toList = ['h', 't', 't', 'p', ':', '/', '/'] := rfl
  have e2 : "https://".toList = ['h', 't', 't', 'p', 's', ':', '/', '/'] := rfl
  rw [e1, e2] at h
  cases url with
  | nil => rfl
  | cons c cs =>
    simp only [pyStartswith, Bool.or_eq_true, Bool.and_eq_true, decide_eq_true_eq] at h
    have hc : c = 'h' := by rcases h with ⟨h1, _⟩ | ⟨h1, _⟩ <;> exact h1
    simp [pyStartswith, hc]

/-- C3 counterexample: with an empty allow list, `WebCrawler.is_url_allowed`
admits a URL even though it matches a deny rule by substring, contradicting
the claimed check order (deny before the empty-allow-list shortcut). -/
theorem empty_allow_bypasses_deny :
    pyContains "https://bad.example.com/page".toList "bad".toList = true ∧
    isUrlAllowed "https://bad.example.com/page".toList [] ["bad".toList] = true :=
  ⟨by decide, by decide⟩

/-- C3 amended: `WebCrawler.is_url_allowed` checks the empty allow list
first (returning true without consulting deny rules or the visited set);
with a non-empty allow list it checks deny substrings, then allow prefixes.
`UTASpider.is_valid_url`, by contrast, rejects visited URLs always, and
rejects deny-substring matches even when the allow list is empty. -/
theorem domain_policy_check_order :
    (∀ url ex, isUrlAllowed url [] ex = true) ∧
    (∀ url allowed ex, allowed ≠ [] →
      ex.any (fun e => pyContains url e) = true → isUrlAllowed url allowed ex = false) ∧
    (∀ url allowed ex, allowed ≠ [] →
      ex.any (fun e => pyContains url e) = false →
      isUrlAllowed url allowed ex = allowed.any (fun d => pyStartswith url d)) ∧
    (∀ url visited dl ex, visited.contains url = true → isValidUrl visited dl ex url = false) ∧
    (∀ url visited ex,
      (pyStartswith url "http://".toList || pyStartswith url "https://".toList) = true →
      visited.contains url = false →
      ex.any (fun e => pyContains url e) = true →
      isValidUrl visited [] ex url = false) := by
  refine ⟨?_, ?_, ?_, ?_, ?_⟩
  · intro url ex
    simp [isUrlAllowed]
  · intro url allowed ex h1 h2
    cases allowed with
    | nil => exact absurd rfl h1
    | cons a as => simp [isUrlAllowed, h2]
  · intro url allowed ex h1 h2
    cases allowed with
    | nil => exact absurd rfl h1
    | cons a as => simp [isUrlAllowed, h2]
  · intro url visited dl ex hvis
    have hmem : url ∈ visited := by simpa using hvis
    unfold isValidUrl
    simp
    intro _ _ hnot
    exact absurd hmem hnot
  · intro url visited ex hsch hvis hex
    simp [isValidUrl, http_prefix_not_hash url hsch, hsch, hvis, hex]

/-- C3 witness: the deny rule fires once the allow list is non-empty, and
`is_valid_url` rejects a deny match under an empty allow list. -/
theorem domain_policy_check_order_witness :
    ((["https://a.com".toList] : List Str) ≠ [] ∧
      ([("bad".toList : Str)].any
        (fun e => pyContains "https://bad.com/x".toList e) = true)) ∧
    isUrlAllowed "https://bad.com/x".toList ["https://a.com".toList] ["bad".toList] = false ∧
    isValidUrl [] [] ["bad".toList] "https://bad.com/x".toList = false :=
  ⟨⟨by decide, by decide⟩,
   domain_policy_check_order.2.1 "https://bad.com/x".toList ["https://a.com".toList]
     ["bad".toList] (by decide) (by decide),
   domain_policy_check_order.2.2.2.2 "https://bad.com/x".toList [] ["bad".toList]
     (by decide) (by decide) (by decide)⟩

/-- C4: resuming from `visited = {A, B}` with one saved document for `A`'s
domain whose extracted links are `C` (admissible, unvisited) and `A`
(already visited) enqueues `C` into `crawl_urls` and not `A`. -/
theorem resume_correctness (A B C dom : Str) (domainLimit excludeDomains : List Str)
    (hCvalid : isValidUrl [A, B] domainLimit excludeDomains C = true)
    (hCnew : ([A, B] : List Str).contains C = false) :
    C ∈ resumeCrawlUrls [A, B] domainLimit excludeDomains [(dom, [[C, A]])] ∧
      A ∉ resumeCrawlUrls [A, B] domainLimit excludeDomains [(dom, [[C, A]])] := by
  have hcA : ([A, B] : List Str).contains A = true := by simp
  have hne : ¬C = A ∧ ¬C = B := by simpa using hCnew
  have hfilter : List.filter (fun u => isValidUrl [A, B] domainLimit excludeDomains u &&
      !([A, B] : List Str).contains u) [C, A] = [C] := by
    simp [List.filter, hCvalid, hCnew, hcA, hne.1, hne.2]
  have hres : resumeCrawlUrls [A, B] domainLimit excludeDomains [(dom, [[C, A]])] = [C] := by
    unfold resumeCrawlUrls scanDomainFiles resumableLinks
    dsimp only
    rw [hfilter]
    simp
  have hAC : A ≠ C := by
    intro h
    subst h
    rw [hcA] at hCnew
    exact absurd hCnew (by simp)
  rw [hres]
  constructor
  · simp
  · simp [hAC]

/-- C4 witness: a concrete resumable state. -/
theorem resume_correctness_witness :
    (isValidUrl ["https://s.com/a".toList, "https://s.com/b".toList] [] []
        "https://s.com/c".toList = true ∧
      (["https://s.com/a".toList, "https://s.com/b".toList] : List Str).contains
        "https://s.com/c".toList = false) ∧
    "https://s.com/c".toList ∈ resumeCrawlUrls
        ["https://s.com/a".toList, "https://s.com/b".toList] [] []
        [("s.com".toList, [["https://s.com/c".toList, "https://s.com/a".toList]])] ∧
      "https://s.com/a".toList ∉ resumeCrawlUrls
        ["https://s.com/a".toList, "https://s.com/b".toList] [] []
        [("s.com".toList, [["https://s.com/c".toList, "https://s.com/a".toList]])] :=
  ⟨⟨by decide, by decide⟩,
   resume_correctness "https://s.com/a".toList "https://s.com/b".toList
     "https://s.com/c".toList "s.com".toList [] [] (by decide) (by decide)⟩

/-- C7 counterexample: a `button` element without `type="submit"` is
classified `unknown`, not `button` — `_classify_element` requires
`tag.get('type') == 'submit'` for the `button` tag as well. -/
theorem button_without_submit_not_button :
    classifyElement "button" [] = "unknown" ∧ ("unknown" : String) ≠ "button" :=
  ⟨by decide, by decide⟩

/-- C7 amended: an element with tag `button` or `input` is classified
`button` exactly when its `type` attribute equals `submit` (and it carries
no `nav` class); without it, `button` falls through every later rule to
`unknown`, while `input` is caught by the form rule. -/
theorem classify_button_requires_submit (attrs : List (String × String))
    (hnav : "nav".toList ∉ getClassList attrs) :
    (getAttr attrs "type" = some "submit" →
      classifyElement "button" attrs = "button" ∧
        classifyElement "input" attrs = "button") ∧
    (getAttr attrs "type" ≠ some "submit" →
      classifyElement "button" attrs = "unknown" ∧
        classifyElement "input" attrs = "form") := by
  have hb : strLower "button" = "button" := by decide
  have hi : strLower "input" = "input" := by decide
  have hnav2 : ('n' :: 'a' :: 'v' :: []) ∉ getClassList attrs := by simpa using hnav
  constructor
  · intro hsub
    constructor
    · simp +decide [classifyElement, hb, hnav2, hsub]
    · simp +decide [classifyElement, hi, hnav2, hsub]
  · intro hsub
    constructor
    · simp +decide [classifyElement, hb, hnav2, hsub]
    · simp +decide [classifyElement, hi, hnav2, hsub]

/-- C7 witness: the four classifier outcomes at concrete attributes. -/
theorem classify_button_requires_submit_witness :
    classifyElement "button" [("type", "submit")] = "button" ∧
    classifyElement "input" [("type", "submit")] = "button" ∧
    classifyElement "button" [("id", "x")] = "unknown" ∧
    classifyElement "input" [("id", "x")] = "form" :=
  ⟨((classify_button_requires_submit [("type", "submit")] (by decide)).1 (by decide)).1,
   ((classify_button_requires_submit [("type", "submit")] (by decide)).1 (by decide)).2,
   ((classify_button_requires_submit [("id", "x")] (by decide)).2 (by decide)).1,
   ((classify_button_requires_submit [("id", "x")] (by decide)).2 (by decide)).2⟩

/-- The last path segment of a URL path. -/
def lastSegment (path : Str) : Str :=
  (splitOnChar '/' path).getLastD []

/-- Modelled from the spec: a path segment "contains a `.` not followed by
`html`" — the rejection criterion the spec states for the non-HTML filter. -/
def dotNotFollowedByHtml : Str → Bool
  | [] => false
  | c :: cs => (c = '.' && !pyStartswith cs "html".toList) || dotNotFollowedByHtml cs

/-- C8 counterexample: `/v1.2/page` has no `.` in its last path segment, so
the claim says it is not rejected; `is_valid_url` rejects it, because the
extension filter inspects the whole path. -/
theorem crawlable_path_checks_whole_path :
    dotNotFollowedByHtml
      (lastSegment (parsePath "https://example.com/v1.2/page".toList)) = false ∧
    isValidUrl [] [] [] "https://example.com/v1.2/page".toList = false :=
  ⟨by decide, by decide⟩

/-- C8 amended: for an unvisited http(s) URL with no domain rules,
`is_valid_url` accepts exactly when the lowercased path does not contain a
`.` without the path also ending in `.html` — the filter inspects the whole
path, not only the last segment. -/
theorem extension_filter_whole_path (url : Str) (visited : List Str)
    (hsch : (pyStartswith url "http://".toList || pyStartswith url "https://".toList) = true)
    (hvis : visited.contains url = false) :
    isValidUrl visited [] [] url =
      !(pyContains (pyLower (parsePath url)) ('.' :: []) &&
        !pyEndswith (pyLower (parsePath url)) ".html".toList) := by
  unfold isValidUrl
  rw [http_prefix_not_hash url hsch]
  rw [if_neg (by simp)]
  rw [hsch]
  rw [if_neg (by simp)]
  rw [if_neg (by rw [hvis]; simp)]
  rw [if_neg (by simp)]
  rw [if_neg (by simp)]
  cases hfin : pyContains (pyLower (parsePath url)) ('.' :: []) &&
      !pyEndswith (pyLower (parsePath url)) ".html".toList
  · rw [if_neg (by rw [hfin]; simp)]
    rfl
  · rw [if_pos hfin]
    rfl

/-- C8 witness: the filter verdicts at a concrete URL. -/
theorem extension_filter_whole_path_witness :
    ((pyStartswith "https://example.com/v9/page".toList "http://".toList ||
       pyStartswith "https://example.com/v9/page".toList "https://".toList) = true) ∧
    isValidUrl [] [] [] "https://example.com/v9/page".toList =
      !(pyContains (pyLower (parsePath "https://example.com/v9/page".toList)) ('.' :: []) &&
        !pyEndswith (pyLower (parsePath "https://example.com/v9/page".toList))
          ".html".toList) :=
  ⟨by decide, extension_filter_whole_path "https://example.com/v9/page".toList []
    (by decide) (by decide)⟩
